import Mathlib

/-
Verification of the CodeWise static-analysis engine.

This file gives a shallow embedding, in Lean 4, of the analysis core of the
CodeWise backend:

* `ComplexityCalculator.calculate` (src/src/middlewares/errorHandler.middleware.ts,
  second embedded module) — cyclomatic complexity over a Babel AST;
* the `ForStatement` visitor of `PerformanceDetector.detect` (src/unnamed/part_008)
  — nested-loop and string-concatenation warnings;
* the `VariableDeclarator` visitor of `SecurityDetector.detect`
  (src/src/analysis/SyntaxDetector.ts, second embedded module) — hardcoded
  secrets;
* `AnalysisEngine.analyzeFile`, `AnalysisEngine.analyzeCodebase`,
  `AnalysisEngine.calculateMetrics` and
  `AnalysisEngine.calculateMaintainabilityIndex`
  (src/src/analysis/SyntaxDetector.ts, third embedded module).

Modelling conventions:

* A Babel AST is modelled as a rose tree `Node` of `NodeKind`s.  Babel's
  `traverse(ast, visitors)` fires each visitor on every node of the tree; we
  model the visit order as the preorder listing `allNodes`.
* JavaScript `number`s are modelled as exact rationals `ℚ`; `Math.round x`
  is `round x = ⌊x + 1/2⌋`, which agrees with JavaScript's `Math.round`.
  The transcendental subterm `Math.log(loc * Math.log2(loc + 1))` of the
  maintainability index is abstracted as an oracle parameter
  `lnOracle : ℕ → ℚ` (its exact floating-point value is irrelevant to every
  property proved here, which holds for all oracles).
* Effects at the engine boundary (file reads, the parser, ESLint, the four
  detectors as invoked behind `try`/`catch`, the progress callback) are
  modelled by passing their outcomes in as data: a `FileInput` carries the
  read/parse outcome and the caught-or-returned issue lists of the lint pass
  and of the four detectors, and the progress callback is a function whose
  result (normal or thrown, i.e. `Except`) is discarded by the engine exactly
  as the source's `try { progressCallback(pct) } catch { log }` does.
* Wall-clock fields (`duration`, `timestamp`) and logging are elided: no
  claim mentions them and they are pure IO.
-/

namespace CodeWise

/-- Source position of a node or diagnostic (Babel `loc.start`). -/
structure Loc where
  line : Nat
  column : Nat
deriving DecidableEq, Repr

/-- Babel AST node kinds relevant to the analysis core.  Kinds carry the
payload the detectors inspect: the operator of a logical / binary expression,
the name of an identifier, the value of a string literal, and whether a
`switch` case has a test (`default:` has none).  Every other node type is
`other tag`. -/
inductive NodeKind where
  | program
  | ifStatement
  | switchStatement
  | switchCase (hasTest : Bool)
  | forStatement
  | forInStatement
  | forOfStatement
  | whileStatement
  | doWhileStatement
  | catchClause
  | conditionalExpression
  | logicalExpression (op : String)
  | binaryExpression (op : String)
  | variableDeclarator
  | identifier (name : String)
  | stringLiteral (value : String)
  | blockStatement
  | expressionStatement
  | functionDeclaration
  | arrowFunctionExpression
  | functionExpression
  | classDeclaration
  | importDeclaration
  | other (tag : String)
deriving DecidableEq, Repr

/-- A Babel AST: a node kind, an optional source location, and the list of
child nodes (all children, in source order, so that a traversal visits every
node of the tree). -/
inductive Node where
  | mk (kind : NodeKind) (loc : Option Loc) (children : List Node)

/-- The kind of a node. -/
def Node.kind : Node → NodeKind
  | .mk k _ _ => k

/-- The source location of a node. -/
def Node.loc : Node → Option Loc
  | .mk _ l _ => l

/-- The children of a node. -/
def Node.children : Node → List Node
  | .mk _ _ cs => cs

mutual
/-- Preorder listing of a tree's nodes: the node itself followed by all of
its descendants.  This is the set of nodes Babel's `traverse` fires visitors
on. -/
def allNodes : Node → List Node
  | .mk k l cs => Node.mk k l cs :: allNodesL cs

/-- Preorder listing of all nodes of a forest. -/
def allNodesL : List Node → List Node
  | [] => []
  | c :: cs => allNodes c ++ allNodesL cs
end

/-- Strict descendants of a node: everything below it, itself excluded.
This is what Babel's `path.traverse` (as opposed to top-level `traverse`)
visits. -/
def descendants (n : Node) : List Node :=
  allNodesL n.children

theorem allNodesL_eq_flatMap (cs : List Node) :
    allNodesL cs = cs.flatMap allNodes := by
  induction cs with
  | nil => rfl
  | cons c cs ih => simp [allNodesL, ih]

/- ------------------------------------------------------------------
ComplexityCalculator (cyclomatic complexity)
------------------------------------------------------------------ -/

namespace ComplexityCalculator

/-- The increment contributed by one visited node, translated visitor by
visitor from `ComplexityCalculator.calculate`:
`IfStatement`, `ForStatement`, `ForInStatement`, `ForOfStatement`,
`WhileStatement`, `DoWhileStatement`, `CatchClause` and
`ConditionalExpression` each add 1 unconditionally; `SwitchCase` adds 1 only
when `path.node.test` is present; `LogicalExpression` adds 1 only when the
operator is `||` or `&&`. -/
def visitIncrement (n : Node) : Nat :=
  match n.kind with
  | .ifStatement => 1
  | .switchCase hasTest => if hasTest then 1 else 0
  | .forStatement => 1
  | .forInStatement => 1
  | .forOfStatement => 1
  | .whileStatement => 1
  | .doWhileStatement => 1
  | .catchClause => 1
  | .conditionalExpression => 1
  | .logicalExpression op => if op = "||" ∨ op = "&&" then 1 else 0
  | _ => 0

/-- `ComplexityCalculator.calculate`: complexity starts at 1 (base
complexity) and each visited node adds its increment. -/
def calculate (ast : Node) : Nat :=
  (allNodes ast).foldl (fun complexity n => complexity + visitIncrement n) 1

/-- A decision point in the sense of the specification: an `if`, a `switch`
case with a non-default test, a `for`/`for-in`/`for-of`, a `while`, a
`do-while`, a `catch` clause, a ternary conditional expression, or an
`&&`/`||` logical expression. -/
def isDecisionPoint (n : Node) : Bool :=
  match n.kind with
  | .ifStatement => true
  | .switchCase hasTest => hasTest
  | .forStatement => true
  | .forInStatement => true
  | .forOfStatement => true
  | .whileStatement => true
  | .doWhileStatement => true
  | .catchClause => true
  | .conditionalExpression => true
  | .logicalExpression op => op == "||" || op == "&&"
  | _ => false

theorem visitIncrement_eq_indicator (n : Node) :
    visitIncrement n = if isDecisionPoint n then 1 else 0 := by
  obtain ⟨k, l, cs⟩ := n
  cases k <;> simp [visitIncrement, isDecisionPoint, Node.kind]

theorem foldl_visitIncrement (l : List Node) (a : Nat) :
    l.foldl (fun complexity n => complexity + visitIncrement n) a
      = a + l.countP isDecisionPoint := by
  induction l generalizing a with
  | nil => simp
  | cons n l ih =>
    rw [List.foldl_cons, ih, List.countP_cons, visitIncrement_eq_indicator]
    by_cases h : isDecisionPoint n
    · simp [h]
      omega
    · simp [h]

end ComplexityCalculator

/-- A function body with no branching construct at all:
`function foo() { g(); }`. -/
def exampleNoBranch : Node :=
  .mk .functionDeclaration none
    [.mk (.identifier "foo") none [],
     .mk .blockStatement none
       [.mk .expressionStatement none
          [.mk (.other "CallExpression") none [.mk (.identifier "g") none []]]]]

/-- The tree of `if (a) {} else if (b) {}`: an `if` whose alternate is a
second `if`. -/
def exampleIfElseIf : Node :=
  .mk .ifStatement none
    [.mk (.identifier "a") none [],
     .mk .blockStatement none [],
     .mk .ifStatement none
       [.mk (.identifier "b") none [],
        .mk .blockStatement none []]]

/-- C2: cyclomatic complexity equals 1 plus the number of decision-point
nodes of the tree (a flat count, no nesting weight); a function with no
branching constructs scores exactly 1, and `if (a) {} else if (b) {}` scores
exactly 3. -/
theorem calculate_eq_one_add_decision_points (ast : Node) :
    ComplexityCalculator.calculate ast
        = 1 + (allNodes ast).countP ComplexityCalculator.isDecisionPoint
      ∧ ComplexityCalculator.calculate exampleNoBranch = 1
      ∧ ComplexityCalculator.calculate exampleIfElseIf = 3 := by
  refine ⟨ComplexityCalculator.foldl_visitIncrement _ 1, by decide, by decide⟩

/- ------------------------------------------------------------------
Issues (the CodeIssue record of src/src/analysis/SyntaxDetector.ts)
------------------------------------------------------------------ -/

/-- Issue severity (`IssueSeverity` in the source). -/
inductive Severity where
  | error
  | warning
  | info
deriving DecidableEq, Repr

/-- A detected problem instance (`CodeIssue` in the source). -/
structure Issue where
  type : String
  severity : Severity
  message : String
  line : Nat
  column : Nat
  filePath : String
  code : Option String
deriving DecidableEq, Repr

/-- Translation of the JavaScript idiom `loc?.start.line || 0`. -/
def locLine : Option Loc → Nat
  | some l => l.line
  | none => 0

/-- Translation of the JavaScript idiom `loc?.start.column || 0`. -/
def locColumn : Option Loc → Nat
  | some l => l.column
  | none => 0

/- ------------------------------------------------------------------
PerformanceDetector — the ForStatement visitor (src/unnamed/part_008)

The detector's other visitors (CallExpression, FunctionDeclaration) emit
only the codes INEFFICIENT_ARRAY_METHOD, MULTIPLE_ITERATIONS, SYNC_IN_ASYNC
and LARGE_FUNCTION, never NESTED_LOOPS or STRING_CONCAT_LOOP, so they are
irrelevant to the nested-loop property and are elided here.
------------------------------------------------------------------ -/

namespace PerformanceDetector

/-- What the visitor's inner `path.traverse` counts towards
`nestedLoopCount`: it installs handlers for `ForStatement` and
`WhileStatement` only (the `innerPath !== path` guard is vacuous because
`path.traverse` visits strict descendants only). -/
def isForOrWhile (n : Node) : Bool :=
  match n.kind with
  | .forStatement => true
  | .whileStatement => true
  | _ => false

/-- `nestedLoopCount` computed for one `for` statement: the number of
`for`/`while` statements strictly inside it. -/
def nestedLoopCount (p : Node) : Nat :=
  (descendants p).countP isForOrWhile

/-- `hasStringConcat`: some strict descendant is a `+` binary expression. -/
def hasStringConcat (p : Node) : Bool :=
  (descendants p).any fun n =>
    match n.kind with
    | .binaryExpression op => op == "+"
    | _ => false

/-- The NESTED_LOOPS issue pushed for a `for` statement. -/
def nestedLoopsIssue (filePath : String) (p : Node) : Issue :=
  { type := "performance"
    severity := .warning
    message := "O(n^" ++ toString (nestedLoopCount p + 1)
        ++ ") complexity detected — consider optimization"
    line := locLine p.loc
    column := locColumn p.loc
    filePath := filePath
    code := some "NESTED_LOOPS" }

/-- The STRING_CONCAT_LOOP issue pushed for a `for` statement. -/
def stringConcatIssue (filePath : String) (p : Node) : Issue :=
  { type := "performance"
    severity := .info
    message := "String concatenation in loop — use array.join() or template literals"
    line := locLine p.loc
    column := locColumn p.loc
    filePath := filePath
    code := some "STRING_CONCAT_LOOP" }

/-- The `ForStatement` visitor body: on a `for` statement, push NESTED_LOOPS
when at least two nested `for`/`while` statements were counted, then
STRING_CONCAT_LOOP when a `+` binary expression occurs inside.  On any other
node the visitor does not fire. -/
def forVisitorIssues (filePath : String) (p : Node) : List Issue :=
  match p.kind with
  | .forStatement =>
      (if 2 ≤ nestedLoopCount p then [nestedLoopsIssue filePath p] else [])
        ++ (if hasStringConcat p then [stringConcatIssue filePath p] else [])
  | _ => []

/-- The ForStatement-visitor part of `PerformanceDetector.detect`: the
traversal fires the visitor on every node of the tree. -/
def detectForStatements (filePath : String) (ast : Node) : List Issue :=
  (allNodes ast).flatMap (forVisitorIssues filePath)

/-- A loop construct in the ordinary (and the specification's own, cf. its
cyclomatic-complexity section) sense: `for`, `for-in`, `for-of`, `while` or
`do-while`. -/
def isLoopConstruct (n : Node) : Bool :=
  match n.kind with
  | .forStatement => true
  | .forInStatement => true
  | .forOfStatement => true
  | .whileStatement => true
  | .doWhileStatement => true
  | _ => false

theorem forVisitorIssues_filter_nested (filePath : String) (p : Node) :
    (forVisitorIssues filePath p).filter
        (fun i => i.code == some "NESTED_LOOPS")
      = (if p.kind == NodeKind.forStatement then
          (if 2 ≤ nestedLoopCount p then some (nestedLoopsIssue filePath p)
           else none)
         else none).toList := by
  obtain ⟨k, l, cs⟩ := p
  cases k <;> simp [forVisitorIssues, Node.kind]
  by_cases h : 2 ≤ nestedLoopCount (Node.mk .forStatement l cs) <;>
    by_cases h2 : hasStringConcat (Node.mk .forStatement l cs) <;>
      simp [h, h2, nestedLoopsIssue, stringConcatIssue]

end PerformanceDetector

/-- A `for` loop whose body consists of two `do-while` loops — two nested
loop constructs, neither of which is a `for` or a `while`. -/
def exampleForTwoDoWhiles : Node :=
  .mk .forStatement none
    [.mk .blockStatement none
       [.mk .doWhileStatement none
          [.mk .blockStatement none [], .mk (.identifier "c") none []],
        .mk .doWhileStatement none
          [.mk .blockStatement none [], .mk (.identifier "c") none []]]]

/-- C8 counterexample: a `for` loop containing two nested loop constructs
(two `do-while` loops) for which the performance detector emits no
NESTED_LOOPS warning — the detector's inner traversal counts only nested
`for` and `while` statements, so the claimed "if and only if at least 2
nested loop constructs" fails at this input. -/
theorem nested_loops_claim_counterexample :
    2 ≤ (descendants exampleForTwoDoWhiles).countP
          PerformanceDetector.isLoopConstruct
      ∧ (PerformanceDetector.detectForStatements "f.js" exampleForTwoDoWhiles).filter
          (fun i => i.code == some "NESTED_LOOPS") = [] := by
  decide

/-- C8 (amended): the NESTED_LOOPS warnings emitted by the performance
detector correspond exactly to the `for` statements of the tree having at
least 2 nested `for`/`while` statements strictly inside them (for-in,
for-of and do-while loops are not counted), each carrying the message
`O(n^(nestedCount+1)) complexity detected — consider optimization`. -/
theorem detect_nested_loops_characterization (filePath : String) (ast : Node) :
    (PerformanceDetector.detectForStatements filePath ast).filter
        (fun i => i.code == some "NESTED_LOOPS")
      = ((allNodes ast).filter
            (fun n => n.kind == NodeKind.forStatement)).filterMap
          (fun p =>
            if 2 ≤ PerformanceDetector.nestedLoopCount p then
              some (PerformanceDetector.nestedLoopsIssue filePath p)
            else none) := by
  unfold PerformanceDetector.detectForStatements
  induction allNodes ast with
  | nil => rfl
  | cons n l ih =>
    rw [List.flatMap_cons, List.filter_append, ih,
      PerformanceDetector.forVisitorIssues_filter_nested, List.filter_cons]
    by_cases hk : n.kind == NodeKind.forStatement
    · simp only [hk, if_pos]
      by_cases hc : 2 ≤ PerformanceDetector.nestedLoopCount n <;>
        simp [hc, List.filterMap_cons]
    · simp [hk]

/- ------------------------------------------------------------------
SecurityDetector — the VariableDeclarator visitor
(src/src/analysis/SyntaxDetector.ts, second embedded module)

The detector's other visitors emit only the codes DANGEROUS_EVAL,
SQL_INJECTION, COMMAND_INJECTION, REDOS_VULNERABILITY and XSS_RISK, never
HARDCODED_SECRET, so only the VariableDeclarator visitor matters for the
hardcoded-secret property and the others are elided.
------------------------------------------------------------------ -/

namespace SecurityDetector

/-- ASCII lower-casing of one character, as `String.prototype.toLowerCase`
acts on the ASCII range (identifier names in the sources at hand are
ASCII). -/
def lowerChar (c : Char) : Char :=
  if 'A' ≤ c && c ≤ 'Z' then Char.ofNat (c.toNat + 32) else c

/-- `varName.toLowerCase()` on the character list of a name. -/
def toLowerStr (s : String) : List Char :=
  s.data.map lowerChar

/-- Whether `needle` is a prefix of `hay` (JavaScript `startsWith`). -/
def prefixOf : List Char → List Char → Bool
  | [], _ => true
  | _ :: _, [] => false
  | a :: as, b :: bs => a == b && prefixOf as bs

/-- Whether `needle` occurs contiguously inside `hay` (JavaScript
`String.prototype.includes`). -/
def includesSub (needle : List Char) : List Char → Bool
  | [] => needle.isEmpty
  | b :: bs => prefixOf needle (b :: bs) || includesSub needle bs

/-- The guard of the `VariableDeclarator` visitor:
`varName.includes('password') || varName.includes('secret') ||
varName.includes('key') || varName.includes('token')` on the lower-cased
name. -/
def nameMatchesSecretWord (varName : List Char) : Bool :=
  includesSub "password".data varName || includesSub "secret".data varName
    || includesSub "key".data varName || includesSub "token".data varName

/-- The HARDCODED_SECRET issue pushed by the visitor. -/
def secretIssue (filePath : String) (loc : Option Loc) : Issue :=
  { type := "security"
    severity := .error
    message := "Hardcoded secret detected - use environment variables"
    line := locLine loc
    column := locColumn loc
    filePath := filePath
    code := some "HARDCODED_SECRET" }

/-- The `VariableDeclarator` visitor body: it returns early unless the
declarator has an initializer that is a string literal and its binding
target is a simple identifier; it then pushes HARDCODED_SECRET exactly when
the lower-cased name contains one of the four secret words and the literal
value is longer than 8 characters. -/
def variableDeclaratorIssues (filePath : String) (d : Node) : List Issue :=
  match d with
  | .mk .variableDeclarator loc children =>
      match children with
      | [id, init] =>
          match id.kind, init.kind with
          | .identifier name, .stringLiteral value =>
              if nameMatchesSecretWord (toLowerStr name) && 8 < value.length
              then [secretIssue filePath loc]
              else []
          | _, _ => []
      | _ => []
  | _ => []

end SecurityDetector

/-- The tree of a declarator `name = "value"` binding a simple identifier to
a string literal. -/
def declaratorNode (name value : String) (loc : Option Loc) : Node :=
  .mk .variableDeclarator loc
    [.mk (.identifier name) none [], .mk (.stringLiteral value) none []]

/-- C9: on a variable declarator binding a simple identifier to a string
literal, the security detector's visitor emits exactly one error issue with
code HARDCODED_SECRET if and only if the lower-cased identifier name
contains one of password/secret/key/token and the literal's length exceeds
8; in particular `const password = "abcdef123"` is flagged and
`const password = "abc"` is not. -/
theorem hardcoded_secret_characterization
    (filePath name value : String) (loc : Option Loc) :
    (SecurityDetector.variableDeclaratorIssues filePath
          (declaratorNode name value loc)
        = if SecurityDetector.nameMatchesSecretWord
              (SecurityDetector.toLowerStr name) && 8 < value.length
          then [SecurityDetector.secretIssue filePath loc]
          else [])
      ∧ (SecurityDetector.variableDeclaratorIssues "f.js"
            (declaratorNode "password" "abcdef123" none)).map (fun i => i.code)
          = [some "HARDCODED_SECRET"]
      ∧ (SecurityDetector.variableDeclaratorIssues "f.js"
            (declaratorNode "password" "abcdef123" none)).map
              (fun i => i.severity) = [.error]
      ∧ SecurityDetector.variableDeclaratorIssues "f.js"
            (declaratorNode "password" "abc" none) = [] := by
  refine ⟨rfl, by decide, by decide, by decide⟩

/- ------------------------------------------------------------------
Line counting: `code.split('\n').length`
------------------------------------------------------------------ -/

/-- JavaScript `text.split('\n')` on the character list of the text: the
maximal list of newline-free segments.  `[]` splits to `[[]]`, matching
`''.split('\n') === ['']`. -/
def splitNl : List Char → List (List Char)
  | [] => [[]]
  | c :: cs =>
      if c = '\n' then [] :: splitNl cs
      else
        match splitNl cs with
        | [] => [[c]]
        | l :: ls => (c :: l) :: ls

/-- `linesOfCode` as the engine computes it: `code.split('\n').length`. -/
def linesOfCodeOf (text : String) : Nat :=
  (splitNl text.data).length

theorem splitNl_ne_nil (s : List Char) : splitNl s ≠ [] := by
  cases s with
  | nil => simp [splitNl]
  | cons c cs =>
      simp only [splitNl]
      split
      · simp
      · split <;> simp

theorem length_splitNl (s : List Char) :
    (splitNl s).length = s.count '\n' + 1 := by
  induction s with
  | nil => simp [splitNl]
  | cons c cs ih =>
      by_cases h : c = '\n'
      · simp [splitNl, h, ih, List.count_cons]
      · simp only [splitNl, if_neg h]
        cases hs : splitNl cs with
        | nil => exact absurd hs (splitNl_ne_nil cs)
        | cons l ls =>
            rw [hs] at ih
            simp only [List.length_cons] at ih ⊢
            rw [List.count_cons]
            simp only [beq_iff_eq]
            rw [if_neg (by simpa using h)]
            omega

/- ------------------------------------------------------------------
Rounding and the maintainability index
(AnalysisEngine.calculateMaintainabilityIndex)
------------------------------------------------------------------ -/

/-- JavaScript `Math.round(x * 100) / 100` (round to 2 decimal places).
`Math.round x` is `⌊x + 1/2⌋`, which is Mathlib's `round`. -/
def jsRound2 (x : ℚ) : ℚ :=
  (round (x * 100) : ℚ) / 100

theorem jsRound2_mono {x y : ℚ} (h : x ≤ y) : jsRound2 x ≤ jsRound2 y := by
  unfold jsRound2
  have : round (x * 100) ≤ round (y * 100) := by
    rw [round_eq, round_eq]
    exact Int.floor_le_floor (by linarith)
  exact (div_le_div_iff_of_pos_right (by norm_num)).mpr (by exact_mod_cast this)

theorem jsRound2_zero : jsRound2 0 = 0 := by
  norm_num [jsRound2]

theorem jsRound2_hundred : jsRound2 100 = 100 := by
  have : round ((100 : ℚ) * 100) = 10000 := by
    rw [show ((100 : ℚ) * 100) = ((10000 : ℤ) : ℚ) by norm_num, round_intCast]
  rw [jsRound2, this]
  norm_num

/-- Rounding to 2 decimals commutes with clamping to `[0, 100]`: the source
rounds first and clamps after, the specification clamps first and rounds
after, and both give the same value because 0 and 100 are fixed points of
the rounding and the rounding is monotone. -/
theorem clamp_jsRound2_comm (x : ℚ) :
    max 0 (min 100 (jsRound2 x)) = jsRound2 (max 0 (min 100 x)) := by
  rcases le_total x 0 with h | h
  · rw [min_eq_right (h.trans (by norm_num)), max_eq_left h, jsRound2_zero]
    have hx : jsRound2 x ≤ 0 := jsRound2_zero ▸ jsRound2_mono h
    rw [min_eq_right (hx.trans (by norm_num)), max_eq_left hx]
  · rcases le_total 100 x with h2 | h2
    · rw [min_eq_left h2, max_eq_right (by norm_num : (0:ℚ) ≤ 100), jsRound2_hundred]
      have hx : 100 ≤ jsRound2 x := jsRound2_hundred ▸ jsRound2_mono h2
      rw [min_eq_left hx]
      exact max_eq_right (by norm_num)
    · rw [min_eq_right h2, max_eq_right h]
      have h0 : 0 ≤ jsRound2 x := jsRound2_zero ▸ jsRound2_mono h
      have h100 : jsRound2 x ≤ 100 := jsRound2_hundred ▸ jsRound2_mono h2
      rw [min_eq_right h100, max_eq_right h0]

namespace AnalysisEngine

/-- `AnalysisEngine.calculateMaintainabilityIndex`:
`if (!loc) return 0;` then
`raw = ((171 - 5.2 * Math.log(loc * Math.log2(loc + 1)) - 0.23 * c) * 100) / 171`
and `Math.max(0, Math.min(100, Math.round(raw * 100) / 100))`.
The transcendental subterm `Math.log(loc * Math.log2(loc + 1))` is supplied
by the oracle `lnOracle`. -/
def calculateMaintainabilityIndex (lnOracle : ℕ → ℚ) (c : ℚ) (loc : ℕ) : ℚ :=
  if loc = 0 then 0
  else
    max 0 (min 100
      (jsRound2 (((171 - 26/5 * lnOracle loc - 23/100 * c) * 100) / 171)))

/-- Modelled from the spec: "given average complexity `C` and total lines of
code `L` (L = 0 ⇒ index = 0), compute
`raw = ((171 − 5.2·ln(L·log2(L+1)) − 0.23·C) × 100) / 171`, then clamp to
`[0, 100]` and round to 2 decimal places" — reading the clamp as applied
before the rounding, the opposite order from the source. -/
def maintainabilityIndexSpec (lnOracle : ℕ → ℚ) (c : ℚ) (loc : ℕ) : ℚ :=
  if loc = 0 then 0
  else
    jsRound2 (max 0 (min 100
      (((171 - 26/5 * lnOracle loc - 23/100 * c) * 100) / 171)))

end AnalysisEngine

/-- C1: for every oracle value of the transcendental subterm, every average
complexity and every total line count, the maintainability index the engine
returns equals the specification's formula (raw value clamped to `[0, 100]`
and rounded to 2 decimal places — in either order, since the two commute),
is 0 when `loc = 0`, and always lies in `[0, 100]`. -/
theorem maintainability_index_correct (lnOracle : ℕ → ℚ) (c : ℚ) (loc : ℕ) :
    AnalysisEngine.calculateMaintainabilityIndex lnOracle c loc
        = AnalysisEngine.maintainabilityIndexSpec lnOracle c loc
      ∧ 0 ≤ AnalysisEngine.calculateMaintainabilityIndex lnOracle c loc
      ∧ AnalysisEngine.calculateMaintainabilityIndex lnOracle c loc ≤ 100
      ∧ (loc = 0 → AnalysisEngine.calculateMaintainabilityIndex lnOracle c loc = 0) := by
  unfold AnalysisEngine.calculateMaintainabilityIndex
    AnalysisEngine.maintainabilityIndexSpec
  by_cases h : loc = 0
  · simp [h]
  · simp only [h, if_false, if_neg h]
    refine ⟨clamp_jsRound2_comm _, le_max_left _ _,
      max_le (by norm_num) (min_le_left _ _), fun hc => hc.elim⟩

/-- C1 witness: at `loc = 0` the index is 0. -/
theorem maintainability_index_correct_witness :
    AnalysisEngine.calculateMaintainabilityIndex (fun _ => 0) 0 0 = 0 :=
  (maintainability_index_correct (fun _ => 0) 0 0).2.2.2 rfl

/- ------------------------------------------------------------------
AnalysisEngine — per-file analysis and project orchestration
(src/src/analysis/SyntaxDetector.ts, third embedded module)

The engine's effectful collaborators are modelled as data carried by a
`FileInput`: whether the read succeeded, whether the parse succeeded (and
the parser diagnostic if not), and the caught-or-returned outcome of the
lint pass and of each of the four detectors (`Except.error` models a thrown
exception, which the source catches and turns into zero issues).
------------------------------------------------------------------ -/

namespace AnalysisEngine

/-- `AnalysisEngine.mapLintSeverity`: 2 → error, 1 → warning, else info. -/
def mapLintSeverity (s : Nat) : Severity :=
  if s = 2 then .error else if s = 1 then .warning else .info

/-- One ESLint diagnostic (`msg` in the source's lint loop). -/
structure LintMsg where
  severity : Nat
  message : String
  line : Nat
  column : Nat
  ruleId : Option String
deriving DecidableEq, Repr

/-- `AnalysisEngine.countFunctions`: function declarations, arrow function
expressions and function expressions. -/
def countFunctions (ast : Node) : Nat :=
  (allNodes ast).countP fun n =>
    match n.kind with
    | .functionDeclaration => true
    | .arrowFunctionExpression => true
    | .functionExpression => true
    | _ => false

/-- `AnalysisEngine.countClasses`: class declarations. -/
def countClasses (ast : Node) : Nat :=
  (allNodes ast).countP fun n =>
    match n.kind with
    | .classDeclaration => true
    | _ => false

/-- `AnalysisEngine.countImports`: import declarations. -/
def countImports (ast : Node) : Nat :=
  (allNodes ast).countP fun n =>
    match n.kind with
    | .importDeclaration => true
    | _ => false

/-- Per-file metrics (the `metrics` field of the source's `FileAnalysis`
interface; every field but `linesOfCode` is optional). -/
structure FileMetrics where
  linesOfCode : Nat
  complexity : Option Nat
  functions : Option Nat
  classes : Option Nat
  imports : Option Nat
deriving DecidableEq, Repr

/-- One file's outcome (`FileAnalysis` in the source). -/
structure FileAnalysis where
  filePath : String
  issues : List Issue
  metrics : FileMetrics
deriving DecidableEq, Repr

/-- The environment `analyzeFile` runs one file in: either the read failed,
or the read succeeded and the parse threw (with the parser's diagnostic), or
both succeeded, in which case the lint pass and each of the four detectors
either returned an issue list or threw (`Except.error`, caught by the
source). -/
inductive FileInput where
  | readFailure (relPath : String)
  | parseFailure (relPath : String) (text : String) (errMessage : String)
      (errLoc : Option Loc)
  | parsed (relPath : String) (text : String) (ast : Node)
      (lintOutcome : Except Unit (List LintMsg))
      (synOutcome logicOutcome perfOutcome secOutcome : Except Unit (List Issue))

/-- The issues contributed by one detector call behind the source's
`try { ... } catch { log }`: the returned list, or none when it threw. -/
def caughtDetectorIssues : Except Unit (List Issue) → List Issue
  | .ok found => found
  | .error _ => []

/-- The lint issues of one file: each ESLint message mapped to a `lint`
issue (`code` falling back to `LINT_ERROR` when the rule id is absent), or
none when ESLint threw. -/
def lintIssuesFor (relPath : String) : Except Unit (List LintMsg) → List Issue
  | .ok msgs =>
      msgs.map fun m =>
        { type := "lint"
          severity := mapLintSeverity m.severity
          message := m.message
          line := m.line
          column := m.column
          filePath := relPath
          code := some (m.ruleId.getD "LINT_ERROR") }
  | .error _ => []

/-- `AnalysisEngine.analyzeFile`: a read failure yields a single `io` error
issue and zero metrics; a parse failure yields a single PARSE_ERROR issue
carrying the parser diagnostic's message and position, with only the line
count as metrics; otherwise the issue list accumulates the lint issues and
then each detector's issues in the declared detector order, and all metrics
are computed.  The function is total: no failure escapes it. -/
def analyzeFile : FileInput → FileAnalysis
  | .readFailure rel =>
      { filePath := rel
        issues := [{ type := "io", severity := .error,
                     message := "Failed to read file", line := 0, column := 0,
                     filePath := rel, code := none }]
        metrics := { linesOfCode := 0, complexity := none, functions := none,
                     classes := none, imports := none } }
  | .parseFailure rel text msg eloc =>
      { filePath := rel
        issues := [{ type := "syntax", severity := .error, message := msg,
                     line := locLine eloc, column := locColumn eloc,
                     filePath := rel, code := some "PARSE_ERROR" }]
        metrics := { linesOfCode := linesOfCodeOf text, complexity := none,
                     functions := none, classes := none, imports := none } }
  | .parsed rel text ast lintO synO logicO perfO secO =>
      { filePath := rel
        issues := [synO, logicO, perfO, secO].foldl
            (fun acc r => acc ++ caughtDetectorIssues r) (lintIssuesFor rel lintO)
        metrics := { linesOfCode := linesOfCodeOf text
                     complexity := some (ComplexityCalculator.calculate ast)
                     functions := some (countFunctions ast)
                     classes := some (countClasses ast)
                     imports := some (countImports ast) } }

/-- Issue counts by severity (the `issueBreakdown` accumulator). -/
structure IssueBreakdown where
  error : Nat
  warning : Nat
  info : Nat
deriving DecidableEq, Repr

/-- Project-level metrics (`MetricsData` in the source). -/
structure MetricsData where
  totalLinesOfCode : Nat
  averageComplexity : ℚ
  totalFunctions : Nat
  totalClasses : Nat
  maintainabilityIndex : ℚ
  issueBreakdown : IssueBreakdown
deriving DecidableEq, Repr

/-- The number of issues of a given severity across all files (the source
increments `totals.issues[i.severity]` once per issue). -/
def severityCount (files : List FileAnalysis) (sev : Severity) : Nat :=
  (files.flatMap fun f => f.issues).countP fun i => i.severity == sev

/-- `AnalysisEngine.calculateMetrics`: sum lines/complexity/functions/classes
over the files (`?? 0` for absent optional metrics), count issues by
severity, average the complexity over the number of files (0 when there are
none), round the average to 2 decimals, and derive the maintainability
index from the unrounded average and the total line count. -/
def calculateMetrics (lnOracle : ℕ → ℚ) (files : List FileAnalysis) :
    MetricsData :=
  let loc := (files.map fun f => f.metrics.linesOfCode).sum
  let cx := (files.map fun f => f.metrics.complexity.getD 0).sum
  let avgCx : ℚ := if files.length = 0 then 0 else (cx : ℚ) / files.length
  { totalLinesOfCode := loc
    averageComplexity := jsRound2 avgCx
    totalFunctions := (files.map fun f => f.metrics.functions.getD 0).sum
    totalClasses := (files.map fun f => f.metrics.classes.getD 0).sum
    maintainabilityIndex := calculateMaintainabilityIndex lnOracle avgCx loc
    issueBreakdown := { error := severityCount files .error
                        warning := severityCount files .warning
                        info := severityCount files .info } }

/-- The engine's return value (`AnalysisResult` in the source; the
wall-clock `duration`/`timestamp` fields and the resolved `projectPath` are
elided). -/
structure AnalysisResult where
  totalFiles : Nat
  analyzedFiles : Nat
  issues : List Issue
  metrics : MetricsData
  fileAnalyses : List FileAnalysis

/-- The percentage reported after the file at position `i` (0-based):
`Math.round(((i + 1) / totalFiles) * 100)`. -/
def progressPct (totalFiles i : Nat) : ℤ :=
  round ((((i : ℚ) + 1) / (totalFiles : ℚ)) * 100)

/-- The accumulator of the engine's sequential per-file loop. -/
structure LoopState where
  fileAnalyses : List FileAnalysis
  allIssues : List Issue
  progressValues : List ℤ

/-- The engine's sequential loop over the discovered files: analyze the
file, append its result and its issues to the accumulators, compute the
percentage, and invoke the callback with it — the callback's outcome
(normal or thrown) is discarded, as the source's `try`/`catch` only logs
it.  `i` is the 0-based position of the next file. -/
def runLoop (totalFiles : Nat) (cb : ℤ → Except String Unit) :
    Nat → List FileInput → LoopState → LoopState
  | _, [], st => st
  | i, f :: rest, st =>
      let analysis := analyzeFile f
      let pct := progressPct totalFiles i
      let _callbackOutcome := cb pct
      runLoop totalFiles cb (i + 1) rest
        { fileAnalyses := st.fileAnalyses ++ [analysis]
          allIssues := st.allIssues ++ analysis.issues
          progressValues := st.progressValues ++ [pct] }

/-- `AnalysisEngine.analyzeCodebase` over an already-discovered file list
(directory walking and framework detection are IO and are abstracted into
the `files` input).  Returns the analysis result together with the list of
values the progress callback was invoked with, in invocation order. -/
def analyzeCodebase (lnOracle : ℕ → ℚ) (files : List FileInput)
    (cb : ℤ → Except String Unit) : AnalysisResult × List ℤ :=
  let st := runLoop files.length cb 0 files ⟨[], [], []⟩
  ({ totalFiles := files.length
     analyzedFiles := st.fileAnalyses.length
     issues := st.allIssues
     metrics := calculateMetrics lnOracle st.fileAnalyses
     fileAnalyses := st.fileAnalyses }, st.progressValues)

theorem runLoop_eq (n : Nat) (cb : ℤ → Except String Unit) :
    ∀ (l : List FileInput) (i : Nat) (st : LoopState),
      runLoop n cb i l st =
        { fileAnalyses := st.fileAnalyses ++ l.map analyzeFile
          allIssues := st.allIssues
              ++ (l.map analyzeFile).flatMap (fun a => a.issues)
          progressValues := st.progressValues
              ++ (List.range l.length).map (fun j => progressPct n (i + j)) } := by
  intro l
  induction l with
  | nil => intro i st; simp [runLoop]
  | cons f rest ih =>
      intro i st
      rw [runLoop, ih]
      simp only [List.map_cons, List.flatMap_cons, List.length_cons,
        List.range_succ_eq_map, List.map_map]
      simp only [LoopState.mk.injEq]
      refine ⟨?_, ?_, ?_⟩
      · simp
      · simp
      · simp only [List.append_assoc, List.singleton_append,
          Function.comp_def, Nat.add_zero, Nat.succ_eq_add_one]
        have hf : (fun j => progressPct n (i + 1 + j))
            = fun j => progressPct n (i + (j + 1)) := by
          funext j
          congr 1
          omega
        rw [hf]

end AnalysisEngine

/-- C3: on a run that discovers zero eligible source files, the engine
returns totalFiles = 0, analyzedFiles = 0, an empty issue list, an empty
file-result list, averageComplexity = 0 and maintainabilityIndex = 0 — and,
being a total function, it does not throw. -/
theorem analyze_codebase_empty (lnOracle : ℕ → ℚ)
    (cb : ℤ → Except String Unit) :
    (AnalysisEngine.analyzeCodebase lnOracle [] cb).1.totalFiles = 0
      ∧ (AnalysisEngine.analyzeCodebase lnOracle [] cb).1.analyzedFiles = 0
      ∧ (AnalysisEngine.analyzeCodebase lnOracle [] cb).1.issues = []
      ∧ (AnalysisEngine.analyzeCodebase lnOracle [] cb).1.fileAnalyses = []
      ∧ (AnalysisEngine.analyzeCodebase lnOracle
            [] cb).1.metrics.averageComplexity = 0
      ∧ (AnalysisEngine.analyzeCodebase lnOracle
            [] cb).1.metrics.maintainabilityIndex = 0 :=
  ⟨rfl, rfl, rfl, rfl, by norm_num [AnalysisEngine.analyzeCodebase,
      AnalysisEngine.runLoop, AnalysisEngine.calculateMetrics, jsRound2], rfl⟩

/-- C4: on a file that was read and parsed, the issue sequence is the
concatenation of the lint issues, then the syntax detector's issues, then
the logic detector's, then the performance detector's, then the security
detector's (a detector that threw contributing none). -/
theorem analyze_file_issue_order (rel text : String) (ast : Node)
    (lintO : Except Unit (List AnalysisEngine.LintMsg))
    (synO logicO perfO secO : Except Unit (List Issue)) :
    (AnalysisEngine.analyzeFile
          (.parsed rel text ast lintO synO logicO perfO secO)).issues
      = AnalysisEngine.lintIssuesFor rel lintO
          ++ AnalysisEngine.caughtDetectorIssues synO
          ++ AnalysisEngine.caughtDetectorIssues logicO
          ++ AnalysisEngine.caughtDetectorIssues perfO
          ++ AnalysisEngine.caughtDetectorIssues secO := rfl

/-- C5: on a hard parse failure, the per-file analyzer returns exactly one
issue — code PARSE_ERROR, type syntax, severity error, message and position
from the parser's diagnostic — and metrics holding only the raw text's line
count; the result is an ordinary `FileAnalysis`, so the failure does not
propagate past the per-file boundary. -/
theorem parse_failure_single_issue (rel text msg : String)
    (eloc : Option Loc) :
    AnalysisEngine.analyzeFile (.parseFailure rel text msg eloc)
        = { filePath := rel
            issues := [{ type := "syntax", severity := .error, message := msg,
                         line := locLine eloc, column := locColumn eloc,
                         filePath := rel, code := some "PARSE_ERROR" }]
            metrics := { linesOfCode := linesOfCodeOf text, complexity := none,
                         functions := none, classes := none, imports := none } }
      ∧ (AnalysisEngine.analyzeFile
            (.parseFailure rel text msg eloc)).issues.length = 1 :=
  ⟨rfl, rfl⟩

/-- C7: for every file whose text was read (whether or not it parsed), the
reported `linesOfCode` is the length of the text split on the newline
character, which equals the number of newline characters plus one — in
particular a text without a trailing newline still counts its last line. -/
theorem lines_of_code_newline_count (rel text msg : String) (ast : Node)
    (eloc : Option Loc) (lintO : Except Unit (List AnalysisEngine.LintMsg))
    (synO logicO perfO secO : Except Unit (List Issue)) :
    (AnalysisEngine.analyzeFile
          (.parsed rel text ast lintO synO logicO perfO secO)).metrics.linesOfCode
        = linesOfCodeOf text
      ∧ (AnalysisEngine.analyzeFile
            (.parseFailure rel text msg eloc)).metrics.linesOfCode
          = linesOfCodeOf text
      ∧ linesOfCodeOf text = text.data.count '\n' + 1 :=
  ⟨rfl, rfl, length_splitNl text.data⟩

/-- C10: every discovered file yields a `FileAnalysis` — including files
whose read, parse, lint, detectors or complexity calculation failed (all of
which are `FileInput` cases) — so analyzedFiles equals totalFiles and the
file-result list has exactly totalFiles entries. -/
theorem every_file_analyzed (lnOracle : ℕ → ℚ)
    (files : List AnalysisEngine.FileInput) (cb : ℤ → Except String Unit) :
    (AnalysisEngine.analyzeCodebase lnOracle files cb).1.analyzedFiles
        = (AnalysisEngine.analyzeCodebase lnOracle files cb).1.totalFiles
      ∧ (AnalysisEngine.analyzeCodebase lnOracle files cb).1.fileAnalyses.length
          = (AnalysisEngine.analyzeCodebase lnOracle files cb).1.totalFiles
      ∧ (AnalysisEngine.analyzeCodebase lnOracle files cb).1.fileAnalyses
          = files.map AnalysisEngine.analyzeFile := by
  have h := AnalysisEngine.runLoop_eq files.length cb files 0 ⟨[], [], []⟩
  refine ⟨?_, ?_, ?_⟩ <;>
    simp [AnalysisEngine.analyzeCodebase, h]

/- ------------------------------------------------------------------
Progress reporting (C6)
------------------------------------------------------------------ -/

/-- The full sequence of percentages reported over a run of `n` files. -/
def progressList (n : Nat) : List ℤ :=
  (List.range n).map (AnalysisEngine.progressPct n)

theorem round_mono_rat {x y : ℚ} (h : x ≤ y) : round x ≤ round y := by
  rw [round_eq, round_eq]
  exact Int.floor_le_floor (by linarith)

theorem progressPct_mono (n : Nat) {i j : Nat} (h : i ≤ j) :
    AnalysisEngine.progressPct n i ≤ AnalysisEngine.progressPct n j := by
  unfold AnalysisEngine.progressPct
  apply round_mono_rat
  rcases Nat.eq_zero_or_pos n with hn | hn
  · simp [hn]
  · have hn' : (0 : ℚ) < n := by exact_mod_cast hn
    have hij : ((i : ℚ) + 1) ≤ (j : ℚ) + 1 := by
      have : (i : ℚ) ≤ j := by exact_mod_cast h
      linarith
    gcongr

/-- C6: the progress callback is invoked exactly once per file; the value
after the file at 0-based position `i` is
`round(100 · (i + 1) / totalFiles)`; the sequence of reported values is
monotonically non-decreasing; the final value is 100 whenever at least one
file was discovered; and the result of the run does not depend on the
callback (in particular not on whether any of its invocations threw). -/
theorem progress_reporting_correct (lnOracle : ℕ → ℚ)
    (files : List AnalysisEngine.FileInput)
    (cb cb' : ℤ → Except String Unit) :
    (AnalysisEngine.analyzeCodebase lnOracle files cb).2
        = progressList files.length
      ∧ (progressList files.length).length = files.length
      ∧ (∀ i : Nat, AnalysisEngine.progressPct files.length i
            = round ((100 * ((i : ℚ) + 1)) / (files.length : ℚ)))
      ∧ List.Pairwise (· ≤ ·) (progressList files.length)
      ∧ (1 ≤ files.length →
            (progressList files.length).getLast? = some 100)
      ∧ AnalysisEngine.analyzeCodebase lnOracle files cb
          = AnalysisEngine.analyzeCodebase lnOracle files cb' := by
  refine ⟨?_, by simp [progressList], ?_, ?_, ?_, ?_⟩
  · have h := AnalysisEngine.runLoop_eq files.length cb files 0 ⟨[], [], []⟩
    simp [AnalysisEngine.analyzeCodebase, h, progressList]
  · intro i
    unfold AnalysisEngine.progressPct
    congr 1
    rw [div_mul_eq_mul_div, mul_comm]
  · exact List.pairwise_map.mpr
      ((List.pairwise_lt_range files.length).imp
        (fun hlt => progressPct_mono files.length (Nat.le_of_lt hlt)))
  · intro hn
    obtain ⟨m, hm⟩ : ∃ m, files.length = m + 1 :=
      ⟨files.length - 1, by omega⟩
    rw [hm]
    unfold progressList
    rw [List.range_succ, List.map_append, List.map_singleton,
      List.getLast?_concat]
    unfold AnalysisEngine.progressPct
    have hcast : ((m + 1 : ℕ) : ℚ) = (m : ℚ) + 1 := by push_cast; ring
    rw [hcast, div_self (by positivity : ((m : ℚ) + 1) ≠ 0), one_mul]
    norm_num [round_eq]
  · have h1 := AnalysisEngine.runLoop_eq files.length cb files 0 ⟨[], [], []⟩
    have h2 := AnalysisEngine.runLoop_eq files.length cb' files 0 ⟨[], [], []⟩
    unfold AnalysisEngine.analyzeCodebase
    rw [h1, h2]

/-- C6 witness: a one-file run ends with a reported value of 100. -/
theorem progress_reporting_correct_witness :
    (progressList ([AnalysisEngine.FileInput.readFailure "a"]).length).getLast?
      = some 100 :=
  (progress_reporting_correct (fun _ => 0)
      [AnalysisEngine.FileInput.readFailure "a"]
      (fun _ => Except.ok ()) (fun _ => Except.ok ())).2.2.2.2.1 (by decide)

end CodeWise
